import Mathlib

/-!
Key reference resolution and key lifecycle handlers of the PKI secrets engine

A shallow embedding of `builtin/logical/pki/path_fetch_keys.go`: the four request
handlers `pathListKeysHandler`, `pathGetKeyHandler`, `pathUpdateKeyHandler` and
`pathDeleteKeyHandler`, written as pure functions that take the storage they run
against and return the pair `(*logical.Response, error)` of the Go handler together
with the storage they leave behind.

The handlers call storage helpers of the same package (`listKeys`, `fetchKeyById`,
`writeKey`, `deleteKey`, `resolveKeyReference`) and use the response type of the
request framework.  Those live outside the file at hand; they are modelled from the
specification and marked as such.
-/

namespace Vault.PKI

/-! ## Data model -/

/-- Go `type keyID string`.  The empty string is the zero value and stands for
"no key" (an unset default pointer, a reference that was not found). -/
abbrev keyID := String

/-- Modelled from the spec: the type `keyEntry` (declared outside the handlers file).
A key record: the identifier, the optional human-readable name (empty = unnamed), the
key-type tag and the uninterpreted key material.  The handlers read `ID`, `Name` and
`PrivateKeyType` and assign `Name`. -/
structure keyEntry where
  ID : keyID
  Name : String
  PrivateKeyType : String
  PrivateKey : String
deriving DecidableEq, Repr

/-- Modelled from the spec: the persistent storage behind `req.Storage`, as far as this
subsystem uses it.  `keys` is the Key Record Store in enumeration order, each record
kept under its `ID`; `defaultKeyId` is the Default Pointer (empty = unset); `writes`
counts the mutating storage calls (put, delete) issued so far, so that a handler that
leaves the storage equal to what it found has provably written nothing. -/
structure Storage where
  keys : List keyEntry
  defaultKeyId : keyID
  writes : Nat
deriving DecidableEq, Repr

/-- Modelled from the spec: the Go `error` values the storage helpers can return
(a storage fault, surfaced unchanged by the handlers).  The only fault an in-memory
store has is a fetch of an identifier that holds no record. -/
inductive StorageError where
  | keyNotFound (id : keyID)
deriving DecidableEq, Repr

/-- Modelled from the spec: the shapes of `logical.Response.Data` the handlers build:
no data (`&logical.Response{}`), an error text, a map of string fields, or a listing of
keys with a per-key info map (itself a map from field to value). -/
inductive ResponseData where
  | empty
  | error (text : String)
  | fields (data : List (String × String))
  | list (keys : List String) (info : List (String × List (String × String)))
deriving DecidableEq, Repr

/-- Modelled from the spec: `logical.Response` of the request framework: the response
data and the warnings attached to it. -/
structure Response where
  Data : ResponseData
  Warnings : List String
deriving DecidableEq, Repr

/-- Modelled from the spec: `logical.ErrorResponse(text)`, the structured, user-facing
error response (a validation or not-found error; not a Go `error`). -/
def ErrorResponse (text : String) : Response :=
  { Data := ResponseData.error text, Warnings := [] }

/-- Modelled from the spec: `(*logical.Response).IsError`. -/
def Response.IsError (r : Response) : Bool :=
  match r.Data with
  | ResponseData.error _ => true
  | _ => false

/-- Modelled from the spec: `(*logical.Response).AddWarning`. -/
def Response.AddWarning (r : Response) (warning : String) : Response :=
  { r with Warnings := r.Warnings ++ [warning] }

/-- Modelled from the spec: `logical.ListResponseWithInfo(keys, keyInfo)`. -/
def ListResponseWithInfo (keys : List String)
    (keyInfo : List (String × List (String × String))) : Response :=
  { Data := ResponseData.list keys keyInfo, Warnings := [] }

/-- A Go `map[string]V` assignment `m[k] = v`: the binding for `k` is replaced. -/
def mapSet {V : Type} (m : List (String × V)) (k : String) (v : V) : List (String × V) :=
  (k, v) :: m.filter (fun p => p.1 != k)

/-- A Go `map[string]V` lookup `m[k]`. -/
def mapGet {V : Type} (m : List (String × V)) (k : String) : Option V :=
  (m.find? (fun p => p.1 == k)).map (fun p => p.2)

/-- What a handler returns, `(*logical.Response, error)` (`none` is Go `nil`), together
with the storage after the call. -/
structure Outcome where
  response : Option Response
  err : Option StorageError
  storage : Storage
deriving DecidableEq, Repr

/-- The warnings a caller sees on a handler result (none on a `nil` response). -/
def Outcome.warnings (o : Outcome) : List String :=
  match o.response with
  | some r => r.Warnings
  | none => []

/-! ## Storage helpers -/

/-- Modelled from the spec: `listKeys`, the Key Record Store operation `list_ids()`,
enumerates all known identifiers. -/
def listKeys (s : Storage) : Except StorageError (List keyID) :=
  Except.ok (s.keys.map (fun k => k.ID))

/-- Modelled from the spec: `fetchKeyById`, the Key Record Store operation
`get(id) -> record | not_found`; an identifier with no record is a storage
"not found" error. -/
def fetchKeyById (s : Storage) (id : keyID) : Except StorageError keyEntry :=
  match s.keys.find? (fun k => k.ID == id) with
  | some key => Except.ok key
  | none => Except.error (StorageError.keyNotFound id)

/-- Modelled from the spec: `writeKey`, the Key Record Store operation `put(record)`:
persists the record keyed by `id`, overwriting any existing record with the same `id`;
no uniqueness check on `name` is performed here. -/
def writeKey (s : Storage) (key : keyEntry) : Except StorageError Storage :=
  if s.keys.any (fun k => k.ID == key.ID) then
    Except.ok { s with
      keys := s.keys.map (fun k => if k.ID == key.ID then key else k),
      writes := s.writes + 1 }
  else
    Except.ok { s with keys := s.keys ++ [key], writes := s.writes + 1 }

/-- Modelled from the spec: `deleteKey`: delete the record (idempotent), determine
whether the deleted `id` was the current Default Pointer value and, if so, clear the
Default Pointer; the returned flag says whether it was the default. -/
def deleteKey (s : Storage) (id : keyID) : Except StorageError (Bool × Storage) :=
  let s1 : Storage :=
    { s with keys := s.keys.filter (fun k => k.ID != id), writes := s.writes + 1 }
  if s.defaultKeyId = id then
    Except.ok (true, { s1 with defaultKeyId := "", writes := s1.writes + 1 })
  else
    Except.ok (false, s1)

/-- Modelled from the spec: `resolveKeyReference`, the Reference Resolver, steps 2 to 5
(step 1, the rejection of the empty reference, is done by each handler before it calls
the resolver).  The sentinel `"default"` yields the Default Pointer value (empty when
unset); an exact identifier match comes next; then the records are scanned for one whose
name equals the reference; otherwise the reference is not found.  Not-found is the empty
identifier with no error, which is what the handlers test for. -/
def resolveKeyReference (s : Storage) (reference : String) : Except StorageError keyID :=
  if reference = "default" then
    Except.ok s.defaultKeyId
  else if (s.keys.map (fun k => k.ID)).contains reference then
    Except.ok reference
  else
    match s.keys.find? (fun k => k.Name == reference) with
    | some key => Except.ok key.ID
    | none => Except.ok ""

/-- Modelled from the spec: a name validity checker of the kind the handlers receive as
`nameMatcher`: letters, digits and the limited punctuation `-`, `_`, `.`; whitespace and
control characters are rejected.  The handlers below take the checker as a parameter;
this one serves as a concrete instance. -/
def genericNameMatcher (name : String) : Bool :=
  name.data.all (fun c => c.isAlphanum || c == '-' || c == '_' || c == '.')

/-! ## The handlers of `path_fetch_keys.go` -/

/-- The body of the `for _, identifier := range entries` loop of `pathListKeysHandler`,
with the two accumulators `responseKeys` and `responseInfo`. -/
def pathListKeysLoop (s : Storage) :
    List keyID → List String → List (String × List (String × String)) →
      Except StorageError (List String × List (String × List (String × String)))
  | [], responseKeys, responseInfo => Except.ok (responseKeys, responseInfo)
  | identifier :: rest, responseKeys, responseInfo =>
    match fetchKeyById s identifier with
    | Except.error e => Except.error e
    | Except.ok key =>
      pathListKeysLoop s rest (responseKeys ++ [identifier])
        (mapSet responseInfo identifier [("name", key.Name)])

/-- `pathListKeysHandler` (List). -/
def pathListKeysHandler (s : Storage) : Outcome :=
  match listKeys s with
  | Except.error e => { response := none, err := some e, storage := s }
  | Except.ok entries =>
    match pathListKeysLoop s entries [] [] with
    | Except.error e => { response := none, err := some e, storage := s }
    | Except.ok (responseKeys, responseInfo) =>
      { response := some (ListResponseWithInfo responseKeys responseInfo),
        err := none, storage := s }

/-- `pathGetKeyHandler` (Read). -/
def pathGetKeyHandler (s : Storage) (keyRef : String) : Outcome :=
  if keyRef.length = 0 then
    { response := some (ErrorResponse "missing key reference"), err := none, storage := s }
  else
    match resolveKeyReference s keyRef with
    | Except.error e => { response := none, err := some e, storage := s }
    | Except.ok keyId =>
      if keyId = "" then
        { response := some (ErrorResponse ("unable to resolve key id for reference" ++ keyRef)),
          err := none, storage := s }
      else
        match fetchKeyById s keyId with
        | Except.error e => { response := none, err := some e, storage := s }
        | Except.ok key =>
          { response := some
              { Data := ResponseData.fields
                  [("id", key.ID), ("name", key.Name), ("type", key.PrivateKeyType),
                   ("backing", "")],
                Warnings := [] },
            err := none, storage := s }

/-- The tail of `pathUpdateKeyHandler` (from `resp := &logical.Response{...}` on): the
response built from the record as it stands after the update, with the warning when the
new name is empty. -/
def updateKeyResponse (key : keyEntry) (newName : String) : Response :=
  let resp : Response :=
    { Data := ResponseData.fields
        [("id", key.ID), ("name", key.Name), ("type", key.PrivateKeyType), ("backing", "")],
      Warnings := [] }
  if newName.length = 0 then
    resp.AddWarning
      ("Name successfully deleted, you will now need to reference this key by it's Id: "
        ++ key.ID)
  else
    resp

/-- `pathUpdateKeyHandler` (Rename).  `nameMatcher` is the package-level name validity
checker; `newName` is the request field `name`. -/
def pathUpdateKeyHandler (nameMatcher : String → Bool) (s : Storage)
    (keyRef newName : String) : Outcome :=
  if keyRef.length = 0 then
    { response := some (ErrorResponse "missing key reference"), err := none, storage := s }
  else
    match resolveKeyReference s keyRef with
    | Except.error e => { response := none, err := some e, storage := s }
    | Except.ok keyId =>
      if keyId = "" then
        { response := some (ErrorResponse ("unable to resolve key id for reference" ++ keyRef)),
          err := none, storage := s }
      else
        match fetchKeyById s keyId with
        | Except.error e => { response := none, err := some e, storage := s }
        | Except.ok key =>
          if newName.length > 0 && !nameMatcher newName then
            { response := some (ErrorResponse "new key name outside of valid character limits"),
              err := none, storage := s }
          else if newName ≠ key.Name then
            let key1 : keyEntry := { key with Name := newName }
            match writeKey s key1 with
            | Except.error e => { response := none, err := some e, storage := s }
            | Except.ok s1 =>
              { response := some (updateKeyResponse key1 newName), err := none, storage := s1 }
          else
            { response := some (updateKeyResponse key newName), err := none, storage := s }

/-- `pathDeleteKeyHandler` (Delete).  A key that was not the default leaves `response`
at its zero value, the `nil` response. -/
def pathDeleteKeyHandler (s : Storage) (keyRef : String) : Outcome :=
  if keyRef.length = 0 then
    { response := some (ErrorResponse "missing key reference"), err := none, storage := s }
  else
    match resolveKeyReference s keyRef with
    | Except.error e => { response := none, err := some e, storage := s }
    | Except.ok keyId =>
      if keyId = "" then
        { response := some (ErrorResponse ("unable to resolve key id for reference" ++ keyRef)),
          err := none, storage := s }
      else
        match deleteKey s keyId with
        | Except.error e => { response := none, err := some e, storage := s }
        | Except.ok (wasDefault, s1) =>
          if wasDefault then
            { response := some
                (Response.AddWarning { Data := ResponseData.empty, Warnings := [] }
                  ("Deleted key " ++ keyId ++ " (via key_ref " ++ keyRef ++
                    "); this was configured as the default key. Operations without an explicit key will not work until a new default is configured.")),
              err := none, storage := s1 }
          else
            { response := none, err := none, storage := s1 }

/-! ## Example stores -/

/-- The scenario store of the specification: `k1` named `ca-root`, `k2` unnamed,
default pointer at `k1`. -/
def scenarioStore : Storage :=
  { keys := [{ ID := "k1", Name := "ca-root", PrivateKeyType := "rsa", PrivateKey := "m1" },
             { ID := "k2", Name := "", PrivateKeyType := "ec", PrivateKey := "m2" }],
    defaultKeyId := "k1", writes := 0 }

/-- A store in which the only record is named after the sentinel and is the default. -/
def sentinelNamedStore : Storage :=
  { keys := [{ ID := "k1", Name := "default", PrivateKeyType := "rsa", PrivateKey := "m1" }],
    defaultKeyId := "k1", writes := 0 }

/-- A store in which the only record is named after its own identifier. -/
def selfNamedStore : Storage :=
  { keys := [{ ID := "k1", Name := "k1", PrivateKeyType := "rsa", PrivateKey := "m1" }],
    defaultKeyId := "", writes := 0 }

/-- A store whose only record carries the sentinel string as its identifier; no default. -/
def sentinelIdStore : Storage :=
  { keys := [{ ID := "default", Name := "x", PrivateKeyType := "rsa", PrivateKey := "m1" }],
    defaultKeyId := "", writes := 0 }

/-! ## Basic facts about the helpers -/

theorem length_eq_zero_iff (x : String) : x.length = 0 ↔ x = "" := by
  cases x with
  | mk l =>
    constructor
    · intro h
      have hl : l = [] := List.length_eq_zero.mp h
      subst hl
      rfl
    · intro h
      rw [h]
      rfl

theorem fetchKeyById_ok {s : Storage} {id : keyID} {key : keyEntry}
    (h : fetchKeyById s id = Except.ok key) : key ∈ s.keys ∧ key.ID = id := by
  unfold fetchKeyById at h
  split at h
  · rename_i k hk
    injection h with h
    subst h
    exact ⟨List.mem_of_find?_eq_some hk, by simpa using List.find?_some hk⟩
  · cases h

theorem pathGetKeyHandler_unresolved {s : Storage} {keyRef : String} (href : keyRef ≠ "")
    (hres : resolveKeyReference s keyRef = Except.ok "") :
    pathGetKeyHandler s keyRef =
      { response := some (ErrorResponse ("unable to resolve key id for reference" ++ keyRef)),
        err := none, storage := s } := by
  have hlen : ¬ keyRef.length = 0 := fun h => href ((length_eq_zero_iff keyRef).mp h)
  simp [pathGetKeyHandler, hlen, hres]

theorem pathUpdateKeyHandler_unresolved (nameMatcher : String → Bool) {s : Storage}
    {keyRef : String} (newName : String) (href : keyRef ≠ "")
    (hres : resolveKeyReference s keyRef = Except.ok "") :
    pathUpdateKeyHandler nameMatcher s keyRef newName =
      { response := some (ErrorResponse ("unable to resolve key id for reference" ++ keyRef)),
        err := none, storage := s } := by
  have hlen : ¬ keyRef.length = 0 := fun h => href ((length_eq_zero_iff keyRef).mp h)
  simp [pathUpdateKeyHandler, hlen, hres]

theorem pathDeleteKeyHandler_unresolved {s : Storage} {keyRef : String} (href : keyRef ≠ "")
    (hres : resolveKeyReference s keyRef = Except.ok "") :
    pathDeleteKeyHandler s keyRef =
      { response := some (ErrorResponse ("unable to resolve key id for reference" ++ keyRef)),
        err := none, storage := s } := by
  have hlen : ¬ keyRef.length = 0 := fun h => href ((length_eq_zero_iff keyRef).mp h)
  simp [pathDeleteKeyHandler, hlen, hres]

theorem pathUpdateKeyHandler_resolved (nameMatcher : String → Bool) {s : Storage}
    {keyRef : String} {keyId : keyID} {key : keyEntry} (newName : String)
    (href : keyRef ≠ "") (hres : resolveKeyReference s keyRef = Except.ok keyId)
    (hid : keyId ≠ "") (hfetch : fetchKeyById s keyId = Except.ok key) :
    pathUpdateKeyHandler nameMatcher s keyRef newName =
      if newName.length > 0 && !nameMatcher newName then
        { response := some (ErrorResponse "new key name outside of valid character limits"),
          err := none, storage := s }
      else if newName ≠ key.Name then
        match writeKey s { key with Name := newName } with
        | Except.error e => { response := none, err := some e, storage := s }
        | Except.ok s1 =>
          { response := some (updateKeyResponse { key with Name := newName } newName),
            err := none, storage := s1 }
      else
        { response := some (updateKeyResponse key newName), err := none, storage := s } := by
  have hlen : ¬ keyRef.length = 0 := fun h => href ((length_eq_zero_iff keyRef).mp h)
  simp only [pathUpdateKeyHandler, hlen, hres, hid, hfetch, if_false]

theorem pathDeleteKeyHandler_resolved {s : Storage} {keyRef : String} {keyId : keyID}
    (href : keyRef ≠ "") (hres : resolveKeyReference s keyRef = Except.ok keyId)
    (hid : keyId ≠ "") :
    pathDeleteKeyHandler s keyRef =
      match deleteKey s keyId with
      | Except.error e => { response := none, err := some e, storage := s }
      | Except.ok (wasDefault, s1) =>
        if wasDefault then
          { response := some
              (Response.AddWarning { Data := ResponseData.empty, Warnings := [] }
                ("Deleted key " ++ keyId ++ " (via key_ref " ++ keyRef ++
                  "); this was configured as the default key. Operations without an explicit key will not work until a new default is configured.")),
            err := none, storage := s1 }
        else
          { response := none, err := none, storage := s1 } := by
  have hlen : ¬ keyRef.length = 0 := fun h => href ((length_eq_zero_iff keyRef).mp h)
  simp only [pathDeleteKeyHandler, hlen, hres, hid, if_false]

theorem resolveKeyReference_not_found {s : Storage} {keyRef : String}
    (hdef : ¬ (keyRef = "default" ∧ s.defaultKeyId ≠ ""))
    (hids : ∀ k ∈ s.keys, k.ID ≠ keyRef) (hnames : ∀ k ∈ s.keys, k.Name ≠ keyRef) :
    resolveKeyReference s keyRef = Except.ok "" := by
  unfold resolveKeyReference
  by_cases hd : keyRef = "default"
  · have hp : s.defaultKeyId = "" := by
      by_contra hne
      exact hdef ⟨hd, hne⟩
    simp [hd, hp]
  · have hc : (s.keys.map (fun k => k.ID)).contains keyRef = false := by
      cases hcon : (s.keys.map (fun k => k.ID)).contains keyRef with
      | false => rfl
      | true =>
        have hmem : keyRef ∈ s.keys.map (fun k => k.ID) := by simpa using hcon
        obtain ⟨k, hk, hkid⟩ := List.mem_map.mp hmem
        exact absurd hkid (hids k hk)
    have hf : s.keys.find? (fun k => k.Name == keyRef) = none := by
      rw [List.find?_eq_none]
      intro k hk
      simpa using hnames k hk
    rw [if_neg hd, hc]
    simp only [hf, Bool.false_eq_true, if_false]

theorem fetchKeyById_filter_ne (s : Storage) (id : keyID) (dk : keyID) (w : Nat) :
    fetchKeyById { keys := s.keys.filter (fun k => k.ID != id), defaultKeyId := dk, writes := w } id
      = Except.error (StorageError.keyNotFound id) := by
  have hnone : (s.keys.filter (fun k => k.ID != id)).find? (fun k => k.ID == id) = none := by
    rw [List.find?_eq_none]
    intro k hk
    have := (List.mem_filter.mp hk).2
    simpa using this
  simp [fetchKeyById, hnone]

theorem find?_filter_other {V : Type} (m : List (String × V)) (k k2 : String) (h : k2 ≠ k) :
    (m.filter (fun p => p.1 != k)).find? (fun p => p.1 == k2) = m.find? (fun p => p.1 == k2) := by
  induction m with
  | nil => rfl
  | cons p rest ih =>
    by_cases hp : p.1 = k2
    · have hpk : p.1 ≠ k := fun hc => h (hp.symm.trans hc)
      have hkeep : (p.1 != k) = true := by simpa using hpk
      have hq : (p.1 == k2) = true := by simpa using hp
      simp only [List.filter_cons, hkeep, if_true, List.find?_cons, hq]
    · have hq : (p.1 == k2) = false := by simpa using hp
      by_cases hpk : p.1 = k
      · have hdrop : (p.1 != k) = false := by simpa using hpk
        simp only [List.filter_cons, hdrop, List.find?_cons, hq, Bool.false_eq_true, if_false]
        exact ih
      · have hkeep : (p.1 != k) = true := by simpa using hpk
        simp only [List.filter_cons, hkeep, if_true, List.find?_cons, hq]
        exact ih

theorem mapGet_mapSet {V : Type} (m : List (String × V)) (k k2 : String) (v : V) :
    mapGet (mapSet m k v) k2 = if k2 = k then some v else mapGet m k2 := by
  unfold mapGet mapSet
  by_cases h : k2 = k
  · subst h
    simp
  · have hkk : (k == k2) = false := by
      simpa using fun hc : k = k2 => h hc.symm
    simp only [List.find?_cons, hkk, find?_filter_other m k k2 h, if_neg h]

theorem writeKey_ok (s : Storage) (key : keyEntry) :
    ∃ s1, writeKey s key = Except.ok s1 ∧ s1.defaultKeyId = s.defaultKeyId ∧
      s1.writes = s.writes + 1 ∧
      s1.keys = if s.keys.any (fun k => k.ID == key.ID) then
          s.keys.map (fun k => if k.ID == key.ID then key else k)
        else s.keys ++ [key] := by
  unfold writeKey
  by_cases h : s.keys.any (fun k => k.ID == key.ID) = true
  · refine ⟨{ s with keys := s.keys.map (fun k => if k.ID == key.ID then key else k),
                     writes := s.writes + 1 }, ?_, rfl, rfl, ?_⟩
    · rw [if_pos h]
    · rw [if_pos h]
  · refine ⟨{ s with keys := s.keys ++ [key], writes := s.writes + 1 }, ?_, rfl, rfl, ?_⟩
    · rw [if_neg h]
    · rw [if_neg h]

theorem pathListKeysLoop_ok (s : Storage) (entries : List keyID) :
    ∀ (responseKeys : List String) (responseInfo : List (String × List (String × String))),
      (∀ id ∈ entries, ∃ key, fetchKeyById s id = Except.ok key) →
      ∃ info, pathListKeysLoop s entries responseKeys responseInfo
          = Except.ok (responseKeys ++ entries, info) ∧
        (∀ id key, id ∈ entries → fetchKeyById s id = Except.ok key →
          mapGet info id = some [("name", key.Name)]) ∧
        (∀ id, id ∉ entries → mapGet info id = mapGet responseInfo id) := by
  induction entries with
  | nil =>
    intro responseKeys responseInfo _
    exact ⟨responseInfo, by simp [pathListKeysLoop], by simp, fun _ _ => rfl⟩
  | cons a rest ih =>
    intro responseKeys responseInfo hall
    obtain ⟨key, hkey⟩ := hall a (List.mem_cons_self a rest)
    obtain ⟨info, hrun, hin, hout⟩ :=
      ih (responseKeys ++ [a]) (mapSet responseInfo a [("name", key.Name)])
        (fun id hid => hall id (List.mem_cons_of_mem a hid))
    refine ⟨info, ?_, ?_, ?_⟩
    · simp only [pathListKeysLoop, hkey, hrun]
      simp
    · intro id key2 hid hfetch
      by_cases hrest : id ∈ rest
      · exact hin id key2 hrest hfetch
      · have hida : id = a := by
          cases List.mem_cons.mp hid with
          | inl h => exact h
          | inr h => exact absurd h hrest
        subst hida
        rw [hkey] at hfetch
        injection hfetch with hk
        subst hk
        rw [hout id hrest, mapGet_mapSet]
        simp
    · intro id hid
      have hne : id ≠ a := fun h => hid (h ▸ List.mem_cons_self a rest)
      have hrest : id ∉ rest := fun h => hid (List.mem_cons_of_mem a h)
      rw [hout id hrest, mapGet_mapSet, if_neg hne]

theorem any_of_fetchKeyById {s : Storage} {id : keyID} {key : keyEntry}
    (h : fetchKeyById s id = Except.ok key) :
    s.keys.any (fun k => k.ID == key.ID) = true := by
  obtain ⟨hmem, _⟩ := fetchKeyById_ok h
  exact List.any_eq_true.mpr ⟨key, hmem, by simp⟩

theorem writeKey_rename {s : Storage} {id : keyID} {key : keyEntry}
    (h : fetchKeyById s id = Except.ok key) (newName : String) :
    writeKey s { key with Name := newName } =
      Except.ok
        { keys := s.keys.map (fun k => if k.ID == key.ID then { key with Name := newName } else k),
          defaultKeyId := s.defaultKeyId, writes := s.writes + 1 } := by
  have hany := any_of_fetchKeyById h
  unfold writeKey
  rw [if_pos hany]

theorem mem_renamed {keys : List keyEntry} {key k : keyEntry} {newName : String}
    (hk : k ∈ keys.map (fun k => if k.ID == key.ID then { key with Name := newName } else k)) :
    k = { key with Name := newName } ∨ (k ∈ keys ∧ k.ID ≠ key.ID) := by
  obtain ⟨k0, hk0, hk0eq⟩ := List.mem_map.mp hk
  by_cases hid : k0.ID = key.ID
  · left
    simp [hid] at hk0eq
    exact hk0eq.symm
  · right
    simp [hid] at hk0eq
    subst hk0eq
    exact ⟨hk0, hid⟩

theorem renamed_mem {keys : List keyEntry} {key : keyEntry} (newName : String)
    (hkey : key ∈ keys) :
    ({ key with Name := newName } : keyEntry) ∈
      keys.map (fun k => if k.ID == key.ID then { key with Name := newName } else k) := by
  exact List.mem_map.mpr ⟨key, hkey, by simp⟩

theorem other_mem_renamed {keys : List keyEntry} {key k : keyEntry} (newName : String)
    (hk : k ∈ keys) (hne : k.ID ≠ key.ID) :
    k ∈ keys.map (fun k => if k.ID == key.ID then { key with Name := newName } else k) := by
  exact List.mem_map.mpr ⟨k, hk, by simp [hne]⟩

theorem find?_renamed (keys : List keyEntry) (key : keyEntry) (newName : String) (id : keyID) :
    (keys.map (fun k => if k.ID == key.ID then { key with Name := newName } else k)).find?
        (fun k => k.ID == id) =
      (keys.find? (fun k => k.ID == id)).map
        (fun k => if k.ID == key.ID then { key with Name := newName } else k) := by
  induction keys with
  | nil => rfl
  | cons a rest ih =>
    by_cases ha : a.ID = key.ID
    · by_cases hid : key.ID = id
      · simp [List.find?_cons, ha, hid]
      · have hb : (key.ID == id) = false := by simpa using hid
        simp only [List.map_cons, List.find?_cons, ha, beq_self_eq_true, if_true, hb]
        exact ih
    · have hb : (a.ID == key.ID) = false := by simpa using ha
      by_cases hid : a.ID = id
      · have hc : (a.ID == id) = true := by simpa using hid
        simp only [List.map_cons, List.find?_cons, hb, Bool.false_eq_true, if_false, hc,
          Option.map_some']
      · have hc : (a.ID == id) = false := by simpa using hid
        simp only [List.map_cons, List.find?_cons, hb, Bool.false_eq_true, if_false, hc]
        exact ih

theorem fetchKeyById_renamed {s : Storage} {id : keyID} {key : keyEntry}
    (h : fetchKeyById s id = Except.ok key) (newName : String) (w : Nat) :
    fetchKeyById
        { keys := s.keys.map (fun k => if k.ID == key.ID then { key with Name := newName } else k),
          defaultKeyId := s.defaultKeyId, writes := w } id
      = Except.ok { key with Name := newName } := by
  obtain ⟨_, hkid⟩ := fetchKeyById_ok h
  have hfind : s.keys.find? (fun k => k.ID == id) = some key := by
    unfold fetchKeyById at h
    split at h
    · rename_i k hk
      injection h with h
      rw [hk, h]
    · cases h
  unfold fetchKeyById
  simp only [find?_renamed, hfind, Option.map_some', beq_self_eq_true, if_true]

theorem updateKeyResponse_named (key : keyEntry) {newName : String} (h : newName ≠ "") :
    updateKeyResponse key newName =
      { Data := ResponseData.fields
          [("id", key.ID), ("name", key.Name), ("type", key.PrivateKeyType), ("backing", "")],
        Warnings := [] } := by
  have hlen : ¬ newName.length = 0 := fun hl => h ((length_eq_zero_iff newName).mp hl)
  simp only [updateKeyResponse, hlen, if_false]

theorem updateKeyResponse_unnamed (key : keyEntry) :
    updateKeyResponse key "" =
      { Data := ResponseData.fields
          [("id", key.ID), ("name", key.Name), ("type", key.PrivateKeyType), ("backing", "")],
        Warnings :=
          ["Name successfully deleted, you will now need to reference this key by it's Id: "
            ++ key.ID] } := by
  rfl

/-- The resolver characterised: a reference resolves to the non-empty identifier `id`
exactly when it is the sentinel and the Default Pointer is `id`, or it is `id` itself
and `id` is stored, or it is no stored identifier and the first record holding it as
its name has identifier `id`. -/
theorem resolveKeyReference_eq_iff (s : Storage) (reference : String) (id : keyID)
    (hid : id ≠ "") :
    resolveKeyReference s reference = Except.ok id ↔
      (reference = "default" ∧ s.defaultKeyId = id) ∨
      (reference ≠ "default" ∧ reference = id ∧ ∃ k ∈ s.keys, k.ID = reference) ∨
      (reference ≠ "default" ∧ (∀ k ∈ s.keys, k.ID ≠ reference) ∧
        ∃ k, s.keys.find? (fun k => k.Name == reference) = some k ∧ k.ID = id) := by
  unfold resolveKeyReference
  by_cases hd : reference = "default"
  · rw [if_pos hd]
    constructor
    · intro h
      injection h with h
      exact Or.inl ⟨hd, h⟩
    · intro h
      rcases h with ⟨_, h⟩ | ⟨hnd, _⟩ | ⟨hnd, _⟩
      · rw [h]
      · exact absurd hd hnd
      · exact absurd hd hnd
  · rw [if_neg hd]
    by_cases hc : (s.keys.map (fun k => k.ID)).contains reference = true
    · rw [if_pos hc]
      have hex : ∃ k ∈ s.keys, k.ID = reference := by
        simp only [List.contains_iff_exists_mem_beq, List.mem_map] at hc
        obtain ⟨x, ⟨k, hk, hkx⟩, hx⟩ := hc
        have hxn : x = reference := (by simpa using hx : reference = x).symm
        exact ⟨k, hk, hkx.trans hxn⟩
      constructor
      · intro h
        injection h with h
        exact Or.inr (Or.inl ⟨hd, h, hex⟩)
      · intro h
        rcases h with ⟨hdd, _⟩ | ⟨_, h, _⟩ | ⟨_, hno, _⟩
        · exact absurd hdd hd
        · rw [h]
        · obtain ⟨k, hk, hkid⟩ := hex
          exact absurd hkid (hno k hk)
    · rw [if_neg hc]
      have hno : ∀ k ∈ s.keys, k.ID ≠ reference := by
        intro k hk hkid
        apply hc
        simp only [List.contains_iff_exists_mem_beq, List.mem_map]
        exact ⟨reference, ⟨k, hk, hkid⟩, by simp⟩
      cases hf : s.keys.find? (fun k => k.Name == reference) with
      | none =>
        constructor
        · intro h
          injection h with h
          exact absurd h.symm hid
        · intro h
          rcases h with ⟨hdd, _⟩ | ⟨_, _, k, hk, hkid⟩ | ⟨_, _, k, hk, _⟩
          · exact absurd hdd hd
          · exact absurd hkid (hno k hk)
          · cases hk
      | some k0 =>
        constructor
        · intro h
          injection h with h
          exact Or.inr (Or.inr ⟨hd, hno, k0, rfl, h⟩)
        · intro h
          rcases h with ⟨hdd, _⟩ | ⟨_, _, k, hk, hkid⟩ | ⟨_, _, k, hk, hkid⟩
          · exact absurd hdd hd
          · exact absurd hkid (hno k hk)
          · injection hk with hk
            show Except.ok k0.ID = Except.ok id
            rw [hk, hkid]

theorem exists_id_renamed (keys : List keyEntry) (key : keyEntry) (newName : String)
    (hkey : key ∈ keys) (x : keyID) :
    (∃ k ∈ keys.map (fun k => if k.ID == key.ID then { key with Name := newName } else k),
        k.ID = x) ↔ ∃ k ∈ keys, k.ID = x := by
  constructor
  · rintro ⟨k, hk, hkx⟩
    rcases mem_renamed hk with h | ⟨hk0, _⟩
    · rw [h] at hkx
      exact ⟨key, hkey, hkx⟩
    · exact ⟨k, hk0, hkx⟩
  · rintro ⟨k, hk, hkx⟩
    by_cases hid : k.ID = key.ID
    · exact ⟨{ key with Name := newName }, renamed_mem newName hkey, hid.symm.trans hkx⟩
    · exact ⟨k, other_mem_renamed newName hk hid, hkx⟩

theorem find?_name_renamed (keys : List keyEntry) (key : keyEntry) (newName : String) :
    (keys.map (fun k => if k.ID == key.ID then { key with Name := newName } else k)).find?
        (fun k => k.Name == newName) =
      (keys.find? (fun k => k.ID == key.ID || k.Name == newName)).map
        (fun k => if k.ID == key.ID then { key with Name := newName } else k) := by
  induction keys with
  | nil => rfl
  | cons a rest ih =>
    by_cases ha : a.ID = key.ID
    · have hb : (a.ID == key.ID) = true := by simpa using ha
      simp only [List.map_cons, List.find?_cons, hb, if_true, beq_self_eq_true, Bool.true_or,
        Option.map_some']
    · have hb : (a.ID == key.ID) = false := by simpa using ha
      by_cases hn : a.Name = newName
      · have hc : (a.Name == newName) = true := by simpa using hn
        simp only [List.map_cons, List.find?_cons, hb, Bool.false_eq_true, if_false, hc,
          Bool.or_true, Option.map_some']
      · have hc : (a.Name == newName) = false := by simpa using hn
        simp only [List.map_cons, List.find?_cons, hb, Bool.false_eq_true, if_false, hc,
          Bool.or_false]
        exact ih

theorem find?_name_of_first (keys : List keyEntry) (key : keyEntry)
    (hfirst : keys.find? (fun k => k.ID == key.ID) = some key) :
    keys.find? (fun k => k.Name == key.Name) =
      keys.find? (fun k => k.ID == key.ID || k.Name == key.Name) := by
  induction keys with
  | nil => rfl
  | cons a rest ih =>
    by_cases hn : a.Name = key.Name
    · have hc : (a.Name == key.Name) = true := by simpa using hn
      simp only [List.find?_cons, hc, Bool.or_true]
    · have hc : (a.Name == key.Name) = false := by simpa using hn
      by_cases ha : a.ID = key.ID
      · have hb : (a.ID == key.ID) = true := by simpa using ha
        simp only [List.find?_cons, hb] at hfirst
        injection hfirst with hfirst
        exact absurd (by rw [hfirst]) hn
      · have hb : (a.ID == key.ID) = false := by simpa using ha
        simp only [List.find?_cons, hb] at hfirst
        simp only [List.find?_cons, hc, hb, Bool.or_false]
        exact ih hfirst

theorem fetchKeyById_find {s : Storage} {id : keyID} {key : keyEntry}
    (h : fetchKeyById s id = Except.ok key) :
    s.keys.find? (fun k => k.ID == key.ID) = some key := by
  obtain ⟨_, hkid⟩ := fetchKeyById_ok h
  unfold fetchKeyById at h
  split at h
  · rename_i k hk
    injection h with h
    rw [hkid, hk, h]
  · cases h

/-- C6: called with an empty reference, Read, Rename and Delete each return the
validation error response "missing key reference" with no Go error and hand back the
storage exactly as they found it (so the Default Pointer too); the response is the same
whatever the storage holds, the storage is not consulted. -/
theorem empty_reference_rejected (nameMatcher : String → Bool) (s : Storage)
    (newName : String) :
    pathGetKeyHandler s "" =
        { response := some (ErrorResponse "missing key reference"), err := none, storage := s } ∧
    pathUpdateKeyHandler nameMatcher s "" newName =
        { response := some (ErrorResponse "missing key reference"), err := none, storage := s } ∧
    pathDeleteKeyHandler s "" =
        { response := some (ErrorResponse "missing key reference"), err := none, storage := s } ∧
    (ErrorResponse "missing key reference").IsError = true ∧
    (∀ s2 : Storage,
      (pathGetKeyHandler s2 "").response = (pathGetKeyHandler s "").response ∧
      (pathUpdateKeyHandler nameMatcher s2 "" newName).response =
        (pathUpdateKeyHandler nameMatcher s "" newName).response ∧
      (pathDeleteKeyHandler s2 "").response = (pathDeleteKeyHandler s "").response) := by
  refine ⟨rfl, rfl, rfl, rfl, fun s2 => ⟨rfl, rfl, rfl⟩⟩

/-- C10: for a non-empty reference that is neither `"default"` with a set pointer, nor
a stored identifier, nor a stored name, Read, Rename and Delete each return the
user-facing not-found error response with no Go error, and hand back the storage (and
with it the Default Pointer) unchanged. -/
theorem unknown_reference_not_found (nameMatcher : String → Bool) (s : Storage)
    (keyRef newName : String) (href : keyRef ≠ "")
    (hdef : ¬ (keyRef = "default" ∧ s.defaultKeyId ≠ ""))
    (hids : ∀ k ∈ s.keys, k.ID ≠ keyRef) (hnames : ∀ k ∈ s.keys, k.Name ≠ keyRef) :
    pathGetKeyHandler s keyRef =
        { response := some (ErrorResponse ("unable to resolve key id for reference" ++ keyRef)),
          err := none, storage := s } ∧
    pathUpdateKeyHandler nameMatcher s keyRef newName =
        { response := some (ErrorResponse ("unable to resolve key id for reference" ++ keyRef)),
          err := none, storage := s } ∧
    pathDeleteKeyHandler s keyRef =
        { response := some (ErrorResponse ("unable to resolve key id for reference" ++ keyRef)),
          err := none, storage := s } ∧
    (ErrorResponse ("unable to resolve key id for reference" ++ keyRef)).IsError = true := by
  have hres := resolveKeyReference_not_found hdef hids hnames
  exact ⟨pathGetKeyHandler_unresolved href hres,
    pathUpdateKeyHandler_unresolved nameMatcher newName href hres,
    pathDeleteKeyHandler_unresolved href hres, rfl⟩

theorem unknown_reference_not_found_witness :
    pathGetKeyHandler scenarioStore "ca-leaf" =
        { response := some (ErrorResponse ("unable to resolve key id for reference" ++ "ca-leaf")),
          err := none, storage := scenarioStore } ∧
    pathUpdateKeyHandler genericNameMatcher scenarioStore "ca-leaf" "x" =
        { response := some (ErrorResponse ("unable to resolve key id for reference" ++ "ca-leaf")),
          err := none, storage := scenarioStore } ∧
    pathDeleteKeyHandler scenarioStore "ca-leaf" =
        { response := some (ErrorResponse ("unable to resolve key id for reference" ++ "ca-leaf")),
          err := none, storage := scenarioStore } ∧
    (ErrorResponse ("unable to resolve key id for reference" ++ "ca-leaf")).IsError = true :=
  unknown_reference_not_found genericNameMatcher scenarioStore "ca-leaf" "x"
    (by decide) (by decide) (by decide) (by decide)

/-- C4: Delete on a reference that resolves to an existing record whose identifier is
not the Default Pointer value returns the empty (`nil`) success response, with no
warning and no error, and the Default Pointer after the call is the one before it. -/
theorem delete_non_default (s : Storage) (keyRef : String) (keyId : keyID) (key : keyEntry)
    (href : keyRef ≠ "") (hres : resolveKeyReference s keyRef = Except.ok keyId)
    (hid : keyId ≠ "") (_hfetch : fetchKeyById s keyId = Except.ok key)
    (hnd : keyId ≠ s.defaultKeyId) :
    (pathDeleteKeyHandler s keyRef).response = none ∧
    (pathDeleteKeyHandler s keyRef).warnings = [] ∧
    (pathDeleteKeyHandler s keyRef).err = none ∧
    (pathDeleteKeyHandler s keyRef).storage.defaultKeyId = s.defaultKeyId ∧
    fetchKeyById (pathDeleteKeyHandler s keyRef).storage keyId =
      Except.error (StorageError.keyNotFound keyId) := by
  have hne : ¬ s.defaultKeyId = keyId := fun h => hnd h.symm
  have hrun := pathDeleteKeyHandler_resolved href hres hid
  simp only [deleteKey, hne, if_false] at hrun
  rw [hrun]
  refine ⟨rfl, rfl, rfl, rfl, ?_⟩
  have hnone : (s.keys.filter (fun k => k.ID != keyId)).find? (fun k => k.ID == keyId) = none := by
    rw [List.find?_eq_none]
    intro k hk
    have := (List.mem_filter.mp hk).2
    simpa using this
  simp [fetchKeyById, hnone]

theorem delete_non_default_witness :
    (pathDeleteKeyHandler scenarioStore "k2").response = none ∧
    (pathDeleteKeyHandler scenarioStore "k2").warnings = [] ∧
    (pathDeleteKeyHandler scenarioStore "k2").err = none ∧
    (pathDeleteKeyHandler scenarioStore "k2").storage.defaultKeyId = scenarioStore.defaultKeyId ∧
    fetchKeyById (pathDeleteKeyHandler scenarioStore "k2").storage "k2" =
      Except.error (StorageError.keyNotFound "k2") :=
  delete_non_default scenarioStore "k2" "k2"
    { ID := "k2", Name := "", PrivateKeyType := "ec", PrivateKey := "m2" }
    (by decide) (by rfl) (by decide) (by rfl) (by decide)

/-- C3: when the Default Pointer is set to the identifier `d` of an existing record,
Delete on a reference that resolves to `d` removes that record (and no other), clears
the Default Pointer and returns a non-error response carrying a warning, with no Go
error; in the resulting storage the record can no longer be fetched and the reference
`"default"` resolves to not-found. -/
theorem delete_default_clears_pointer (s : Storage) (keyRef : String) (d : keyID)
    (key : keyEntry) (href : keyRef ≠ "") (hptr : s.defaultKeyId = d) (hd : d ≠ "")
    (_hfetch : fetchKeyById s d = Except.ok key)
    (hres : resolveKeyReference s keyRef = Except.ok d) :
    (∃ r, (pathDeleteKeyHandler s keyRef).response = some r ∧ r.IsError = false ∧
      r.Warnings = ["Deleted key " ++ d ++ " (via key_ref " ++ keyRef ++
        "); this was configured as the default key. Operations without an explicit key will not work until a new default is configured."]) ∧
    (pathDeleteKeyHandler s keyRef).err = none ∧
    (pathDeleteKeyHandler s keyRef).storage.keys = s.keys.filter (fun k => k.ID != d) ∧
    (∀ k ∈ (pathDeleteKeyHandler s keyRef).storage.keys, k.ID ≠ d) ∧
    fetchKeyById (pathDeleteKeyHandler s keyRef).storage d =
      Except.error (StorageError.keyNotFound d) ∧
    (pathDeleteKeyHandler s keyRef).storage.defaultKeyId = "" ∧
    resolveKeyReference (pathDeleteKeyHandler s keyRef).storage "default" = Except.ok "" ∧
    (pathGetKeyHandler (pathDeleteKeyHandler s keyRef).storage "default").response =
      some (ErrorResponse ("unable to resolve key id for reference" ++ "default")) := by
  have hrun := pathDeleteKeyHandler_resolved href hres hd
  simp only [deleteKey, hptr, if_true] at hrun
  rw [hrun]
  have hresd : resolveKeyReference
      { keys := s.keys.filter (fun k => k.ID != d), defaultKeyId := "",
        writes := s.writes + 1 + 1 } "default" = Except.ok "" := by
    simp [resolveKeyReference]
  refine ⟨⟨_, rfl, rfl, by simp [Response.AddWarning]⟩, rfl, rfl, ?_, ?_, rfl, hresd, ?_⟩
  · intro k hk
    have := (List.mem_filter.mp hk).2
    simpa using this
  · exact fetchKeyById_filter_ne s d "" (s.writes + 1 + 1)
  · rw [pathGetKeyHandler_unresolved (by decide) hresd]

theorem delete_default_clears_pointer_witness :
    (∃ r, (pathDeleteKeyHandler scenarioStore "ca-root").response = some r ∧ r.IsError = false ∧
      r.Warnings = ["Deleted key " ++ "k1" ++ " (via key_ref " ++ "ca-root" ++
        "); this was configured as the default key. Operations without an explicit key will not work until a new default is configured."]) ∧
    (pathDeleteKeyHandler scenarioStore "ca-root").err = none ∧
    (pathDeleteKeyHandler scenarioStore "ca-root").storage.keys =
      scenarioStore.keys.filter (fun k => k.ID != "k1") ∧
    (∀ k ∈ (pathDeleteKeyHandler scenarioStore "ca-root").storage.keys, k.ID ≠ "k1") ∧
    fetchKeyById (pathDeleteKeyHandler scenarioStore "ca-root").storage "k1" =
      Except.error (StorageError.keyNotFound "k1") ∧
    (pathDeleteKeyHandler scenarioStore "ca-root").storage.defaultKeyId = "" ∧
    resolveKeyReference (pathDeleteKeyHandler scenarioStore "ca-root").storage "default"
      = Except.ok "" ∧
    (pathGetKeyHandler (pathDeleteKeyHandler scenarioStore "ca-root").storage "default").response =
      some (ErrorResponse ("unable to resolve key id for reference" ++ "default")) :=
  delete_default_clears_pointer scenarioStore "ca-root" "k1"
    { ID := "k1", Name := "ca-root", PrivateKeyType := "rsa", PrivateKey := "m1" }
    (by decide) (by rfl) (by decide) (by rfl) (by rfl)

/-- C9: for a reference that resolves to a record, Rename with a non-empty new name
that fails the character-set check returns the validation error response with no Go
error and hands back the storage unchanged (nothing is written); the check is not
applied to the empty name: whatever the checker, Rename to the empty name is accepted
with a non-error response, and its result does not depend on the checker. -/
theorem rename_invalid_name_rejected (nameMatcher : String → Bool) (s : Storage)
    (keyRef : String) (keyId : keyID) (key : keyEntry)
    (href : keyRef ≠ "") (hres : resolveKeyReference s keyRef = Except.ok keyId)
    (hid : keyId ≠ "") (hfetch : fetchKeyById s keyId = Except.ok key) :
    (∀ newName : String, newName ≠ "" → nameMatcher newName = false →
      pathUpdateKeyHandler nameMatcher s keyRef newName =
        { response := some (ErrorResponse "new key name outside of valid character limits"),
          err := none, storage := s } ∧
      (ErrorResponse "new key name outside of valid character limits").IsError = true ∧
      (pathUpdateKeyHandler nameMatcher s keyRef newName).storage.writes = s.writes) ∧
    (∃ r, (pathUpdateKeyHandler nameMatcher s keyRef "").response = some r ∧
      r.IsError = false) ∧
    (pathUpdateKeyHandler nameMatcher s keyRef "").err = none ∧
    (∀ otherMatcher : String → Bool,
      pathUpdateKeyHandler otherMatcher s keyRef "" =
        pathUpdateKeyHandler nameMatcher s keyRef "") := by
  refine ⟨?_, ?_, ?_, ?_⟩
  · intro newName hne hbad
    have hlen : newName.length > 0 :=
      Nat.pos_of_ne_zero (fun h => hne ((length_eq_zero_iff newName).mp h))
    have hrun := pathUpdateKeyHandler_resolved nameMatcher newName href hres hid hfetch
    simp only [hlen, hbad, decide_True, Bool.not_false, Bool.and_self, if_true] at hrun
    rw [hrun]
    exact ⟨rfl, rfl, rfl⟩
  · rw [pathUpdateKeyHandler_resolved nameMatcher "" href hres hid hfetch]
    by_cases hn : "" ≠ key.Name
    · obtain ⟨s1, hw, _⟩ := writeKey_ok s { key with Name := "" }
      refine ⟨updateKeyResponse { key with Name := "" } "", ?_, rfl⟩
      simp [hn, hw]
    · refine ⟨updateKeyResponse key "", ?_, rfl⟩
      simp [hn]
  · rw [pathUpdateKeyHandler_resolved nameMatcher "" href hres hid hfetch]
    by_cases hn : "" ≠ key.Name
    · obtain ⟨s1, hw, _⟩ := writeKey_ok s { key with Name := "" }
      simp [hn, hw]
    · simp [hn]
  · intro otherMatcher
    rw [pathUpdateKeyHandler_resolved nameMatcher "" href hres hid hfetch,
      pathUpdateKeyHandler_resolved otherMatcher "" href hres hid hfetch]
    simp

theorem rename_invalid_name_rejected_witness :
    genericNameMatcher "ca root" = false ∧
    (pathUpdateKeyHandler genericNameMatcher scenarioStore "ca-root" "ca root" =
        { response := some (ErrorResponse "new key name outside of valid character limits"),
          err := none, storage := scenarioStore } ∧
      (ErrorResponse "new key name outside of valid character limits").IsError = true ∧
      (pathUpdateKeyHandler genericNameMatcher scenarioStore "ca-root" "ca root").storage.writes
        = scenarioStore.writes) ∧
    (∃ r, (pathUpdateKeyHandler genericNameMatcher scenarioStore "ca-root" "").response = some r ∧
      r.IsError = false) ∧
    (pathUpdateKeyHandler genericNameMatcher scenarioStore "ca-root" "").err = none ∧
    (∀ otherMatcher : String → Bool,
      pathUpdateKeyHandler otherMatcher scenarioStore "ca-root" "" =
        pathUpdateKeyHandler genericNameMatcher scenarioStore "ca-root" "") :=
  have h := rename_invalid_name_rejected genericNameMatcher scenarioStore "ca-root" "k1"
    { ID := "k1", Name := "ca-root", PrivateKeyType := "rsa", PrivateKey := "m1" }
    (by decide) (by rfl) (by decide) (by rfl)
  ⟨by decide, h.1 "ca root" (by decide) (by decide), h.2.1, h.2.2.1, h.2.2.2⟩

/-- C7: when every enumerated identifier can be fetched, List returns, with no Go error
and the storage unchanged, the key sequence that is exactly the enumerated identifiers
in their order, and an info map whose domain is exactly those identifiers, each mapped
to the summary whose `name` is the current name of the record fetched for it. -/
theorem list_returns_ids_with_names (s : Storage) (ids : List keyID)
    (hlist : listKeys s = Except.ok ids)
    (hfetch : ∀ id ∈ ids, ∃ key, fetchKeyById s id = Except.ok key) :
    ∃ info, pathListKeysHandler s =
        { response := some (ListResponseWithInfo ids info), err := none, storage := s } ∧
      (∀ id, (mapGet info id).isSome = true ↔ id ∈ ids) ∧
      (∀ id key, id ∈ ids → fetchKeyById s id = Except.ok key →
        mapGet info id = some [("name", key.Name)]) := by
  obtain ⟨info, hrun, hin, hout⟩ := pathListKeysLoop_ok s ids [] [] hfetch
  refine ⟨info, ?_, ?_, hin⟩
  · simp only [pathListKeysHandler, hlist, hrun]
    simp
  · intro id
    constructor
    · intro hsome
      by_contra hnot
      rw [hout id hnot] at hsome
      simp [mapGet] at hsome
    · intro hid
      obtain ⟨key, hkey⟩ := hfetch id hid
      rw [hin id key hid hkey]
      rfl

theorem list_returns_ids_with_names_witness :
    ∃ info, pathListKeysHandler scenarioStore =
        { response := some (ListResponseWithInfo ["k1", "k2"] info), err := none,
          storage := scenarioStore } ∧
      (∀ id, (mapGet info id).isSome = true ↔ id ∈ ["k1", "k2"]) ∧
      (∀ id key, id ∈ ["k1", "k2"] → fetchKeyById scenarioStore id = Except.ok key →
        mapGet info id = some [("name", key.Name)]) :=
  list_returns_ids_with_names scenarioStore ["k1", "k2"] (by rfl)
    (by
      intro id hid
      simp only [List.mem_cons, List.mem_singleton, List.not_mem_nil, or_false] at hid
      rcases hid with h | h
      · exact ⟨{ ID := "k1", Name := "ca-root", PrivateKeyType := "rsa", PrivateKey := "m1" },
          by rw [h]; rfl⟩
      · exact ⟨{ ID := "k2", Name := "", PrivateKeyType := "ec", PrivateKey := "m2" },
          by rw [h]; rfl⟩)

/-- C1, as the code has it: a name held by another record does not make Rename fail.
For distinct records `A` and `B`, `A` holding the non-empty name `N`, Rename on a
reference that resolves to `B` with new name `N` is decided by the character-set check
alone: when `N` fails it, the validation error response comes back and the storage is
unchanged; when `N` passes it, the call succeeds with a non-error response and no Go
error, `B` is stored under its identifier with name `N`, and `A` is still stored, still
holding `N`. -/
theorem rename_to_held_name (nameMatcher : String → Bool) (s : Storage) (keyRef : String)
    (A B : keyEntry) (N : String) (hA : A ∈ s.keys) (hAB : A.ID ≠ B.ID)
    (hAN : A.Name = N) (hN : N ≠ "") (href : keyRef ≠ "")
    (hres : resolveKeyReference s keyRef = Except.ok B.ID) (hBid : B.ID ≠ "")
    (hB : fetchKeyById s B.ID = Except.ok B) :
    (nameMatcher N = false →
      pathUpdateKeyHandler nameMatcher s keyRef N =
        { response := some (ErrorResponse "new key name outside of valid character limits"),
          err := none, storage := s }) ∧
    (nameMatcher N = true →
      (pathUpdateKeyHandler nameMatcher s keyRef N).response =
        some { Data := ResponseData.fields
                 [("id", B.ID), ("name", N), ("type", B.PrivateKeyType), ("backing", "")],
               Warnings := [] } ∧
      (pathUpdateKeyHandler nameMatcher s keyRef N).err = none ∧
      fetchKeyById (pathUpdateKeyHandler nameMatcher s keyRef N).storage B.ID =
        Except.ok { B with Name := N } ∧
      A ∈ (pathUpdateKeyHandler nameMatcher s keyRef N).storage.keys ∧
      A.Name = N) := by
  have hlen : N.length > 0 :=
    Nat.pos_of_ne_zero (fun h => hN ((length_eq_zero_iff N).mp h))
  have hrun := pathUpdateKeyHandler_resolved nameMatcher N href hres hBid hB
  constructor
  · intro hbad
    simp only [hlen, hbad, decide_True, Bool.not_false, Bool.and_self, if_true] at hrun
    exact hrun
  · intro hgood
    simp only [hlen, hgood, decide_True, Bool.not_true, Bool.and_false, Bool.false_eq_true,
      if_false] at hrun
    by_cases hsame : N = B.Name
    · have hBN : ({ B with Name := N } : keyEntry) = B := by rw [hsame]
      simp only [hsame, ne_eq, not_true_eq_false, if_false] at hrun
      rw [← hsame] at hrun
      rw [hrun]
      refine ⟨?_, rfl, ?_, hA, hAN⟩
      · simp only [updateKeyResponse_named B hN, ← hsame]
      · rw [hBN]
        exact hB
    · simp only [ne_eq, hsame, not_false_eq_true, if_true, writeKey_rename hB N] at hrun
      rw [hrun]
      refine ⟨?_, rfl, ?_, ?_, hAN⟩
      · simp only [updateKeyResponse_named _ hN]
      · exact fetchKeyById_renamed hB N (s.writes + 1)
      · exact other_mem_renamed N hA hAB

theorem rename_to_held_name_witness :
    genericNameMatcher "ca-root" = true ∧
    (pathUpdateKeyHandler genericNameMatcher scenarioStore "k2" "ca-root").response =
      some { Data := ResponseData.fields
               [("id", "k2"), ("name", "ca-root"), ("type", "ec"), ("backing", "")],
             Warnings := [] } ∧
    (pathUpdateKeyHandler genericNameMatcher scenarioStore "k2" "ca-root").err = none ∧
    fetchKeyById (pathUpdateKeyHandler genericNameMatcher scenarioStore "k2" "ca-root").storage
        "k2" =
      Except.ok { ID := "k2", Name := "ca-root", PrivateKeyType := "ec", PrivateKey := "m2" } ∧
    ({ ID := "k1", Name := "ca-root", PrivateKeyType := "rsa", PrivateKey := "m1" } : keyEntry) ∈
      (pathUpdateKeyHandler genericNameMatcher scenarioStore "k2" "ca-root").storage.keys ∧
    "ca-root" = "ca-root" :=
  ⟨by decide,
    (rename_to_held_name genericNameMatcher scenarioStore "k2"
      { ID := "k1", Name := "ca-root", PrivateKeyType := "rsa", PrivateKey := "m1" }
      { ID := "k2", Name := "", PrivateKeyType := "ec", PrivateKey := "m2" }
      "ca-root" (by decide) (by decide) (by rfl) (by decide) (by decide) (by rfl) (by decide)
      (by rfl)).2 (by decide)⟩

/-- C1, the claim refuted on the scenario of the specification: `k1` holds `ca-root`,
the reference `k2` resolves to the other record `k2`, and Rename of `k2` to `ca-root`
is not rejected: the response is not an error, the storage has changed (one write), and
afterwards both records hold the name `ca-root`. -/
theorem rename_to_held_name_counterexample :
    resolveKeyReference scenarioStore "k2" = Except.ok "k2" ∧
    fetchKeyById scenarioStore "k1" =
      Except.ok { ID := "k1", Name := "ca-root", PrivateKeyType := "rsa", PrivateKey := "m1" } ∧
    pathUpdateKeyHandler genericNameMatcher scenarioStore "k2" "ca-root" =
      { response := some
          { Data := ResponseData.fields
              [("id", "k2"), ("name", "ca-root"), ("type", "ec"), ("backing", "")],
            Warnings := [] },
        err := none,
        storage :=
          { keys := [{ ID := "k1", Name := "ca-root", PrivateKeyType := "rsa", PrivateKey := "m1" },
                     { ID := "k2", Name := "ca-root", PrivateKeyType := "ec", PrivateKey := "m2" }],
            defaultKeyId := "k1", writes := 1 } } ∧
    ¬ ((∃ r, (pathUpdateKeyHandler genericNameMatcher scenarioStore "k2" "ca-root").response
            = some r ∧ r.IsError = true) ∧
        (pathUpdateKeyHandler genericNameMatcher scenarioStore "k2" "ca-root").storage
          = scenarioStore) := by
  refine ⟨rfl, rfl, by decide, ?_⟩
  intro h
  exact absurd h.2 (by decide)

/-- C2, as the code has it: Rename called with the record's own current name writes
nothing and hands back the storage unchanged, with no Go error; when that name is
non-empty the response carries no warning; when it is empty the response carries the
"name deleted" warning all the same. -/
theorem rename_same_name (nameMatcher : String → Bool) (s : Storage) (keyRef : String)
    (keyId : keyID) (key : keyEntry) (href : keyRef ≠ "")
    (hres : resolveKeyReference s keyRef = Except.ok keyId) (hid : keyId ≠ "")
    (hfetch : fetchKeyById s keyId = Except.ok key) :
    (pathUpdateKeyHandler nameMatcher s keyRef key.Name).storage = s ∧
    (pathUpdateKeyHandler nameMatcher s keyRef key.Name).storage.writes = s.writes ∧
    (pathUpdateKeyHandler nameMatcher s keyRef key.Name).err = none ∧
    (key.Name ≠ "" → (pathUpdateKeyHandler nameMatcher s keyRef key.Name).warnings = []) ∧
    (key.Name = "" → (pathUpdateKeyHandler nameMatcher s keyRef key.Name).warnings =
      ["Name successfully deleted, you will now need to reference this key by it's Id: "
        ++ key.ID]) := by
  have hrun := pathUpdateKeyHandler_resolved nameMatcher key.Name href hres hid hfetch
  simp only [ne_eq, not_true_eq_false, if_false] at hrun
  by_cases hbad : (decide (key.Name.length > 0) && !nameMatcher key.Name) = true
  · rw [if_pos hbad] at hrun
    rw [hrun]
    refine ⟨rfl, rfl, rfl, fun _ => rfl, ?_⟩
    intro hempty
    rw [hempty] at hbad
    simp at hbad
  · rw [if_neg hbad] at hrun
    rw [hrun]
    refine ⟨rfl, rfl, rfl, ?_, ?_⟩
    · intro hne
      simp only [Outcome.warnings, updateKeyResponse_named key hne]
    · intro hempty
      simp only [Outcome.warnings, hempty, updateKeyResponse_unnamed]

theorem rename_same_name_witness :
    (pathUpdateKeyHandler genericNameMatcher scenarioStore "default" "ca-root").storage
      = scenarioStore ∧
    (pathUpdateKeyHandler genericNameMatcher scenarioStore "default" "ca-root").storage.writes
      = scenarioStore.writes ∧
    (pathUpdateKeyHandler genericNameMatcher scenarioStore "default" "ca-root").err = none ∧
    (pathUpdateKeyHandler genericNameMatcher scenarioStore "default" "ca-root").warnings = [] :=
  have h := rename_same_name genericNameMatcher scenarioStore "default" "k1"
    { ID := "k1", Name := "ca-root", PrivateKeyType := "rsa", PrivateKey := "m1" }
    (by decide) (by rfl) (by decide) (by rfl)
  ⟨h.1, h.2.1, h.2.2.1, h.2.2.2.1 (by decide)⟩

/-- C2, the claim refuted on a record whose current name is empty: `k2` is unnamed,
Rename of `k2` to the empty name (its own current name) leaves the storage unchanged
but the response does carry a warning. -/
theorem rename_same_name_counterexample :
    fetchKeyById scenarioStore "k2" =
      Except.ok { ID := "k2", Name := "", PrivateKeyType := "ec", PrivateKey := "m2" } ∧
    resolveKeyReference scenarioStore "k2" = Except.ok "k2" ∧
    pathUpdateKeyHandler genericNameMatcher scenarioStore "k2" "" =
      { response := some
          { Data := ResponseData.fields
              [("id", "k2"), ("name", ""), ("type", "ec"), ("backing", "")],
            Warnings :=
              ["Name successfully deleted, you will now need to reference this key by it's Id: k2"] },
        err := none, storage := scenarioStore } ∧
    (pathUpdateKeyHandler genericNameMatcher scenarioStore "k2" "").warnings ≠ [] := by
  refine ⟨rfl, rfl, by decide, by decide⟩

/-- C5, as the code has it: after a successful Rename of the record with identifier
`id` to a valid non-empty name `N`, resolving `id` returns `id` unless `id` is itself the
sentinel string while the Default Pointer is not `id`; and resolving `N` returns `id`
exactly in these cases: `N` is the sentinel `"default"` and the Default Pointer is `id`;
or `N` is not the sentinel and is `id` itself; or `N` is neither the sentinel nor a
stored identifier and the first record, in enumeration order, that is the renamed
record or holds `N` is the renamed record (no other holder of `N` comes before it). -/
theorem rename_then_resolve (nameMatcher : String → Bool) (s : Storage) (keyRef : String)
    (id : keyID) (N : String) (r : Response) (href : keyRef ≠ "")
    (hres : resolveKeyReference s keyRef = Except.ok id) (hid : id ≠ "")
    (hN : N ≠ "") (hvalid : nameMatcher N = true)
    (hresp : (pathUpdateKeyHandler nameMatcher s keyRef N).response = some r)
    (_hok : r.IsError = false)
    (_herr : (pathUpdateKeyHandler nameMatcher s keyRef N).err = none) :
    (resolveKeyReference (pathUpdateKeyHandler nameMatcher s keyRef N).storage id
        = Except.ok id ↔ (id = "default" → s.defaultKeyId = id)) ∧
    (resolveKeyReference (pathUpdateKeyHandler nameMatcher s keyRef N).storage N
        = Except.ok id ↔
      (N = "default" ∧ s.defaultKeyId = id) ∨
      (N ≠ "default" ∧ N = id) ∨
      (N ≠ "default" ∧ (∀ k ∈ s.keys, k.ID ≠ N) ∧
        ∃ k, s.keys.find? (fun k => k.ID == id || k.Name == N) = some k ∧ k.ID = id)) := by
  have hlen0 : ¬ keyRef.length = 0 := fun h => href ((length_eq_zero_iff keyRef).mp h)
  have hlen : N.length > 0 :=
    Nat.pos_of_ne_zero (fun h => hN ((length_eq_zero_iff N).mp h))
  cases hf : fetchKeyById s id with
  | error e =>
    simp [pathUpdateKeyHandler, hlen0, hres, hid, hf] at hresp
  | ok key =>
    obtain ⟨hkmem, hkid⟩ := fetchKeyById_ok hf
    have hfirst := fetchKeyById_find hf
    have hrun := pathUpdateKeyHandler_resolved nameMatcher N href hres hid hf
    simp only [hlen, hvalid, decide_True, Bool.not_true, Bool.and_false, Bool.false_eq_true,
      if_false] at hrun
    -- the facts about the storage after the call that the resolver depends on
    have hpost : ∃ s2, (pathUpdateKeyHandler nameMatcher s keyRef N).storage = s2 ∧
        s2.defaultKeyId = s.defaultKeyId ∧
        (∀ x, (∃ k ∈ s2.keys, k.ID = x) ↔ ∃ k ∈ s.keys, k.ID = x) ∧
        ((∃ k, s2.keys.find? (fun k => k.Name == N) = some k ∧ k.ID = id) ↔
          ∃ k, s.keys.find? (fun k => k.ID == id || k.Name == N) = some k ∧ k.ID = id) := by
      by_cases hsame : N = key.Name
      · simp only [hsame, ne_eq, not_true_eq_false, if_false] at hrun
        rw [← hsame] at hrun
        refine ⟨s, by rw [hrun], rfl, fun x => Iff.rfl, ?_⟩
        rw [hsame, ← hkid, find?_name_of_first s.keys key hfirst]
      · simp only [ne_eq, hsame, not_false_eq_true, if_true, writeKey_rename hf N] at hrun
        refine ⟨{ keys := s.keys.map
                      (fun k => if k.ID == key.ID then { key with Name := N } else k),
                  defaultKeyId := s.defaultKeyId, writes := s.writes + 1 },
          by rw [hrun], rfl, fun x => exists_id_renamed s.keys key N hkmem x, ?_⟩
        show (∃ k, (s.keys.map
            (fun k => if k.ID == key.ID then { key with Name := N } else k)).find?
              (fun k => k.Name == N) = some k ∧ k.ID = id) ↔ _
        rw [find?_name_renamed, hkid]
        cases hq : s.keys.find? (fun k => k.ID == id || k.Name == N) with
        | none => simp
        | some k0 =>
          simp only [Option.map_some', Option.some.injEq]
          constructor
          · rintro ⟨k, hk, hkk⟩
            refine ⟨k0, rfl, ?_⟩
            rw [← hk] at hkk
            by_cases h0 : k0.ID = id
            · exact h0
            · have hb : (k0.ID == id) = false := by simpa using h0
              simp only [hb, Bool.false_eq_true, if_false] at hkk
              exact hkk
          · rintro ⟨k, hk, hkk⟩
            rw [← hk] at hkk
            refine ⟨_, rfl, ?_⟩
            have hb : (k0.ID == id) = true := by simpa using hkk
            simp only [hb, if_true]
    obtain ⟨s2, hs2, hptr, hids, hscan⟩ := hpost
    rw [hs2]
    have hex2 : ∃ k ∈ s2.keys, k.ID = id := (hids id).mpr ⟨key, hkmem, hkid⟩
    constructor
    · rw [resolveKeyReference_eq_iff s2 id id hid, hptr]
      constructor
      · intro h hd
        rcases h with ⟨_, h⟩ | ⟨hnd, _⟩ | ⟨hnd, _⟩
        · exact h
        · exact absurd hd hnd
        · exact absurd hd hnd
      · intro h
        by_cases hd : id = "default"
        · exact Or.inl ⟨hd, h hd⟩
        · exact Or.inr (Or.inl ⟨hd, rfl, hex2⟩)
    · rw [resolveKeyReference_eq_iff s2 N id hid, hptr]
      constructor
      · intro h
        rcases h with h | ⟨hnd, hNid, _⟩ | ⟨hnd, hno, hfound⟩
        · exact Or.inl h
        · exact Or.inr (Or.inl ⟨hnd, hNid⟩)
        · refine Or.inr (Or.inr ⟨hnd, ?_, hscan.mp hfound⟩)
          intro k hk hkN
          obtain ⟨k2, hk2, hk2N⟩ := (hids N).mpr ⟨k, hk, hkN⟩
          exact hno k2 hk2 hk2N
      · intro h
        rcases h with h | ⟨hnd, hNid⟩ | ⟨hnd, hno, hfound⟩
        · exact Or.inl h
        · refine Or.inr (Or.inl ⟨hnd, hNid, ?_⟩)
          rw [hNid]
          exact hex2
        · refine Or.inr (Or.inr ⟨hnd, ?_, hscan.mpr hfound⟩)
          intro k hk hkN
          obtain ⟨k2, hk2, hk2N⟩ := (hids N).mp ⟨k, hk, hkN⟩
          exact hno k2 hk2 hk2N

theorem rename_then_resolve_witness :
    resolveKeyReference (pathUpdateKeyHandler genericNameMatcher scenarioStore "k2" "ca-leaf").storage
      "k2" = Except.ok "k2" ∧
    resolveKeyReference (pathUpdateKeyHandler genericNameMatcher scenarioStore "k2" "ca-leaf").storage
      "ca-leaf" = Except.ok "k2" :=
  have h := rename_then_resolve genericNameMatcher scenarioStore "k2" "k2" "ca-leaf"
    { Data := ResponseData.fields
        [("id", "k2"), ("name", "ca-leaf"), ("type", "ec"), ("backing", "")],
      Warnings := [] }
    (by decide) (by rfl) (by decide) (by decide) (by decide) (by decide) (by decide)
    (by decide)
  ⟨h.1.mpr (by decide),
    h.2.mpr (Or.inr (Or.inr ⟨by decide, by decide,
      ⟨{ ID := "k2", Name := "", PrivateKeyType := "ec", PrivateKey := "m2" }, by rfl, by rfl⟩⟩))⟩

/-- C5, the claim refuted in each of the three cases it includes, on the scenario store
(`k1` named `ca-root` and default, `k2` unnamed).  Rename of `k2` succeeds each time,
yet (a) renamed to the sentinel `default`, `default` resolves to the Default Pointer
`k1`; (b) renamed to `k1`, the identifier of the other record, `k1` resolves to that
record; (c) renamed to `ca-root`, which `k1` already holds, `ca-root` resolves to
`k1`.  And (d) for a record whose identifier is the sentinel string itself, with no
default set, a successful Rename leaves the identifier resolving to not-found. -/
theorem rename_then_resolve_counterexample :
    (genericNameMatcher "default" = true ∧
      (pathUpdateKeyHandler genericNameMatcher scenarioStore "k2" "default").response =
        some { Data := ResponseData.fields
                 [("id", "k2"), ("name", "default"), ("type", "ec"), ("backing", "")],
               Warnings := [] } ∧
      (pathUpdateKeyHandler genericNameMatcher scenarioStore "k2" "default").err = none ∧
      resolveKeyReference
        (pathUpdateKeyHandler genericNameMatcher scenarioStore "k2" "default").storage "default"
        = Except.ok "k1") ∧
    (genericNameMatcher "k1" = true ∧
      (pathUpdateKeyHandler genericNameMatcher scenarioStore "k2" "k1").response =
        some { Data := ResponseData.fields
                 [("id", "k2"), ("name", "k1"), ("type", "ec"), ("backing", "")],
               Warnings := [] } ∧
      (pathUpdateKeyHandler genericNameMatcher scenarioStore "k2" "k1").err = none ∧
      resolveKeyReference
        (pathUpdateKeyHandler genericNameMatcher scenarioStore "k2" "k1").storage "k1"
        = Except.ok "k1") ∧
    (genericNameMatcher "ca-root" = true ∧
      (pathUpdateKeyHandler genericNameMatcher scenarioStore "k2" "ca-root").response =
        some { Data := ResponseData.fields
                 [("id", "k2"), ("name", "ca-root"), ("type", "ec"), ("backing", "")],
               Warnings := [] } ∧
      (pathUpdateKeyHandler genericNameMatcher scenarioStore "k2" "ca-root").err = none ∧
      resolveKeyReference
        (pathUpdateKeyHandler genericNameMatcher scenarioStore "k2" "ca-root").storage "ca-root"
        = Except.ok "k1") ∧
    (Except.ok "k1" : Except StorageError keyID) ≠ Except.ok "k2" ∧
    (resolveKeyReference sentinelIdStore "x" = Except.ok "default" ∧
      genericNameMatcher "y" = true ∧
      (pathUpdateKeyHandler genericNameMatcher sentinelIdStore "x" "y").response =
        some { Data := ResponseData.fields
                 [("id", "default"), ("name", "y"), ("type", "rsa"), ("backing", "")],
               Warnings := [] } ∧
      (pathUpdateKeyHandler genericNameMatcher sentinelIdStore "x" "y").err = none ∧
      resolveKeyReference
        (pathUpdateKeyHandler genericNameMatcher sentinelIdStore "x" "y").storage "default"
        = Except.ok "") ∧
    (Except.ok "" : Except StorageError keyID) ≠ Except.ok "default" := by
  refine ⟨⟨by decide, by decide, by decide, rfl⟩, ⟨by decide, by decide, by decide, rfl⟩,
    ⟨by decide, by decide, by decide, rfl⟩, ?_, ⟨rfl, by decide, by decide, by decide, rfl⟩, ?_⟩
  · intro h
    injection h with h
    exact absurd h (by decide)
  · intro h
    injection h with h
    exact absurd h (by decide)

/-- C8, as the code has it: for every stored record with a non-empty name `M`, Rename
to the empty name succeeds with a response that carries the warning and no Go error,
and the record is persisted with an empty name (one write); afterwards resolving `M`
no longer yields the record's identifier, except in exactly two cases: `M` is the
sentinel `"default"` and the record is the default key, or `M` is not the sentinel and
is the record's own identifier. -/
theorem rename_to_empty (nameMatcher : String → Bool) (s : Storage) (keyRef : String)
    (id : keyID) (key : keyEntry) (href : keyRef ≠ "")
    (hres : resolveKeyReference s keyRef = Except.ok id) (hid : id ≠ "")
    (hfetch : fetchKeyById s id = Except.ok key) (hM : key.Name ≠ "") :
    (pathUpdateKeyHandler nameMatcher s keyRef "").response =
      some { Data := ResponseData.fields
               [("id", id), ("name", ""), ("type", key.PrivateKeyType), ("backing", "")],
             Warnings :=
               ["Name successfully deleted, you will now need to reference this key by it's Id: "
                 ++ id] } ∧
    (pathUpdateKeyHandler nameMatcher s keyRef "").err = none ∧
    fetchKeyById (pathUpdateKeyHandler nameMatcher s keyRef "").storage id =
      Except.ok { key with Name := "" } ∧
    (pathUpdateKeyHandler nameMatcher s keyRef "").storage.writes = s.writes + 1 ∧
    (resolveKeyReference (pathUpdateKeyHandler nameMatcher s keyRef "").storage key.Name
        = Except.ok id ↔
      (key.Name = "default" ∧ s.defaultKeyId = id) ∨
      (key.Name ≠ "default" ∧ key.Name = id)) := by
  obtain ⟨hkmem, hkid⟩ := fetchKeyById_ok hfetch
  have hrun := pathUpdateKeyHandler_resolved nameMatcher "" href hres hid hfetch
  have hne : "" ≠ key.Name := fun h => hM h.symm
  have hzero : ¬ ("".length > 0) := by decide
  simp only [hzero, decide_False, Bool.false_and, Bool.false_eq_true, if_false, ne_eq, hne,
    not_false_eq_true, if_true, writeKey_rename hfetch ""] at hrun
  rw [hrun]
  refine ⟨?_, rfl, fetchKeyById_renamed hfetch "" (s.writes + 1), rfl, ?_⟩
  · simp only [updateKeyResponse_unnamed, hkid]
  · rw [resolveKeyReference_eq_iff _ key.Name id hid]
    constructor
    · intro h
      rcases h with h | ⟨hnd, hMid, _⟩ | ⟨_, _, k, hk, hkid2⟩
      · exact Or.inl h
      · exact Or.inr ⟨hnd, hMid⟩
      · have hkn : k.Name = key.Name := by simpa using List.find?_some hk
        rcases mem_renamed (List.mem_of_find?_eq_some hk) with hk1 | ⟨_, hk1⟩
        · rw [hk1] at hkn
          exact absurd hkn.symm hM
        · exact absurd (hkid2.trans hkid.symm) hk1
    · intro h
      rcases h with h | ⟨hnd, hMid⟩
      · exact Or.inl h
      · exact Or.inr (Or.inl ⟨hnd, hMid,
          { key with Name := "" }, renamed_mem "" hkmem, hkid.trans hMid.symm⟩)

theorem rename_to_empty_witness :
    (pathUpdateKeyHandler genericNameMatcher scenarioStore "ca-root" "").response =
      some { Data := ResponseData.fields
               [("id", "k1"), ("name", ""), ("type", "rsa"), ("backing", "")],
             Warnings :=
               ["Name successfully deleted, you will now need to reference this key by it's Id: "
                 ++ "k1"] } ∧
    (pathUpdateKeyHandler genericNameMatcher scenarioStore "ca-root" "").err = none ∧
    fetchKeyById (pathUpdateKeyHandler genericNameMatcher scenarioStore "ca-root" "").storage "k1" =
      Except.ok { ID := "k1", Name := "", PrivateKeyType := "rsa", PrivateKey := "m1" } ∧
    (pathUpdateKeyHandler genericNameMatcher scenarioStore "ca-root" "").storage.writes
      = scenarioStore.writes + 1 ∧
    resolveKeyReference (pathUpdateKeyHandler genericNameMatcher scenarioStore "ca-root" "").storage
      "ca-root" ≠ Except.ok "k1" :=
  have h := rename_to_empty genericNameMatcher scenarioStore "ca-root" "k1"
    { ID := "k1", Name := "ca-root", PrivateKeyType := "rsa", PrivateKey := "m1" }
    (by decide) (by rfl) (by decide) (by rfl) (by decide)
  ⟨h.1, h.2.1, h.2.2.1, h.2.2.2.1, fun hr => absurd (h.2.2.2.2.mp hr) (by decide)⟩

/-- C8, the claim refuted on two stored records with a non-empty name.  (a) The record
`k1` is named `default` and is the default: Rename to the empty name succeeds with the
warning, and `default` still resolves to `k1`.  (b) The record `k1` is named `k1`, its
own identifier: Rename to the empty name succeeds with the warning, and `k1` still
resolves to `k1`. -/
theorem rename_to_empty_counterexample :
    (fetchKeyById sentinelNamedStore "k1" =
        Except.ok { ID := "k1", Name := "default", PrivateKeyType := "rsa", PrivateKey := "m1" } ∧
      (pathUpdateKeyHandler genericNameMatcher sentinelNamedStore "k1" "").warnings =
        ["Name successfully deleted, you will now need to reference this key by it's Id: k1"] ∧
      (pathUpdateKeyHandler genericNameMatcher sentinelNamedStore "k1" "").err = none ∧
      fetchKeyById (pathUpdateKeyHandler genericNameMatcher sentinelNamedStore "k1" "").storage "k1" =
        Except.ok { ID := "k1", Name := "", PrivateKeyType := "rsa", PrivateKey := "m1" } ∧
      resolveKeyReference
        (pathUpdateKeyHandler genericNameMatcher sentinelNamedStore "k1" "").storage "default"
        = Except.ok "k1") ∧
    (fetchKeyById selfNamedStore "k1" =
        Except.ok { ID := "k1", Name := "k1", PrivateKeyType := "rsa", PrivateKey := "m1" } ∧
      (pathUpdateKeyHandler genericNameMatcher selfNamedStore "k1" "").warnings =
        ["Name successfully deleted, you will now need to reference this key by it's Id: k1"] ∧
      (pathUpdateKeyHandler genericNameMatcher selfNamedStore "k1" "").err = none ∧
      fetchKeyById (pathUpdateKeyHandler genericNameMatcher selfNamedStore "k1" "").storage "k1" =
        Except.ok { ID := "k1", Name := "", PrivateKeyType := "rsa", PrivateKey := "m1" } ∧
      resolveKeyReference
        (pathUpdateKeyHandler genericNameMatcher selfNamedStore "k1" "").storage "k1"
        = Except.ok "k1") := by
  refine ⟨⟨rfl, by decide, by decide, rfl, rfl⟩, ⟨rfl, by decide, by decide, rfl, rfl⟩⟩

end Vault.PKI
